import Mathlib

/-!
Verification development for the PBKDF2 demonstration program (PBKDF2.cpp).

The program is shallowly embedded: machine characters (TCHAR) become Lean
Char, byte buffers (TOCTET arrays) become List Nat with values below 256,
and the C int becomes Int with the 32-bit bounds made explicit. Fallible
steps return Option values; the error-message buffer of the C code is
modelled by inductive error values carrying exactly the data the C format
strings interpolate. malloc outcomes and the outcomes of the opaque
bcrypt primitive are oracle parameters, since they are decided outside
the program.
-/

namespace PBKDF2

/-- Value of INT_MAX on the target platform (32-bit int). -/
def INT_MAX : Int := 2147483647

/-- Value of INT_MIN on the target platform (32-bit int). -/
def INT_MIN : Int := -2147483648

/-- CRT errno value ERANGE, set by _ttoi on overflow. -/
def ERANGE : Int := 34

/-- MIN_HASH_TYPE from PBKDF2.cpp. -/
def MIN_HASH_TYPE : Int := 1

/-- MAX_HASH_TYPE from PBKDF2.cpp. -/
def MAX_HASH_TYPE : Int := 5

/-- MIN_SALT from PBKDF2.cpp. -/
def MIN_SALT : Int := 0

/-- MAX_SALT from PBKDF2.cpp (INT_MAX). -/
def MAX_SALT : Int := INT_MAX

/-- MIN_ITERATION_COUNT from PBKDF2.cpp. -/
def MIN_ITERATION_COUNT : Int := 1

/-- MAX_ITERATION_COUNT from PBKDF2.cpp. -/
def MAX_ITERATION_COUNT : Int := 5000000

/-- Whitespace recognised by the CRT integer parser (iswspace set). -/
def isSpaceW (c : Char) : Bool :=
  c == ' ' || c == '\t' || c == '\n' || c == '\r' || c == '\x0b' || c == '\x0c'

/-- Decimal digit test used by the CRT integer parser. -/
def isDigitW (c : Char) : Bool :=
  48 ≤ c.toNat && c.toNat ≤ 57

/-- Models the CRT function _ttoi (atoi and _wtoi), per its documented
contract: leading whitespace is skipped, an optional sign is read, then
decimal digits; if the value overflows the 32-bit int range the result is
clamped to INT_MAX or INT_MIN and errno is set to ERANGE; otherwise errno
is left unchanged (in particular, non-numeric text yields 0 without
touching errno). Returns the parsed value together with the errno value
after the call. -/
def ttoi (errno0 : Int) (s : List Char) : Int × Int :=
  let s1 := s.dropWhile isSpaceW
  let signAndRest : Bool × List Char :=
    match s1 with
    | '-' :: r => (true, r)
    | '+' :: r => (false, r)
    | _ => (false, s1)
  let ds := signAndRest.2.takeWhile isDigitW
  let n : Nat := ds.foldl (fun a c => 10 * a + (c.toNat - 48)) 0
  let v : Int := if signAndRest.1 then -(n : Int) else (n : Int)
  if v > INT_MAX then (INT_MAX, ERANGE)
  else if v < INT_MIN then (INT_MIN, ERANGE)
  else (v, errno0)

/-- The names the program passes as pArgName to getIntegerArg. -/
inductive ArgName where
  | hashType
  | salt
  | iterationCount
  deriving DecidableEq

/-- Error messages getIntegerArg can write to the error buffer. Each
constructor carries exactly the values the corresponding C format string
interpolates: the argument name for the not-an-integer message, and the
argument name plus the violated bound for the two range messages. The
offending value itself is not part of any format string. -/
inductive IntArgError where
  | notAnInteger (argName : ArgName)
  | belowMinimum (argName : ArgName) (minValue : Int)
  | aboveMaximum (argName : ArgName) (maxValue : Int)
  deriving DecidableEq

/-- Embedding of getIntegerArg (PBKDF2.cpp lines 158-188). The C function
resets the error buffer, calls _ttoi, reports not-an-integer when errno is
nonzero after the call, then checks the two bounds; it returns 0 on every
error path. The result is (returned value, errno after the call, error
message written, if any). errno is threaded because the C code never
resets it between calls. -/
def getIntegerArg (pArgName : ArgName) (errno0 : Int) (pArg : List Char)
    (minValue maxValue : Int) : Int × Int × Option IntArgError :=
  let r := ttoi errno0 pArg
  if r.2 ≠ 0 then (0, r.2, some (.notAnInteger pArgName))
  else if r.1 < minValue then (0, r.2, some (.belowMinimum pArgName minValue))
  else if r.1 > maxValue then (0, r.2, some (.aboveMaximum pArgName maxValue))
  else (r.1, r.2, none)

/-- The HEX_DIGITS table of PBKDF2.cpp. -/
def HEX_DIGITS : List Char :=
  ['0', '1', '2', '3', '4', '5', '6', '7', '8', '9', 'A', 'B', 'C', 'D', 'E', 'F']

/-- Indexing into HEX_DIGITS; every index the program produces is below 16,
so the default is never reached. -/
def hexDigitAt (n : Nat) : Char := HEX_DIGITS.getD n '0'

/-- The three characters bytesToHex emits for one byte: the two hex digits
of (b & 0xff) followed by the separating blank. -/
def hexTriple (b : Nat) : List Char :=
  let v := b &&& 255
  [hexDigitAt (v >>> 4), hexDigitAt (v &&& 15), ' ']

/-- Embedding of bytesToHex (PBKDF2.cpp lines 198-227) at the level of the
character sequence produced: for each byte the loop writes two hex digits
and a blank, and after the loop the pointer is stepped back one place and
the terminator is written there, which for a nonempty buffer replaces the
final blank. The out-of-bounds terminator write of the empty case is
tracked separately by bytesToHexTerminatorIndex. -/
def bytesToHex (byteBuffer : List Nat) : List Char :=
  ((byteBuffer.map hexTriple).flatten).dropLast

/-- The zero-based offset, relative to the start of the malloc'd result
buffer of bytesToHex, at which the terminating NUL is written: the loop
leaves the write pointer at offset 3 * bufferSize, and the code then
decrements it once before storing the terminator. The allocation holds
offsets 0 .. 3 * bufferSize - 1, so the write is inside the allocation
exactly when this value is nonnegative. -/
def bytesToHexTerminatorIndex (bufferSize : Nat) : Int :=
  3 * (bufferSize : Int) - 1

/-- Embedding of getHexCharValue (PBKDF2.cpp lines 232-262): successive
base subtractions with the C constants ('A'-'0'-10 = 7 and 'a'-'A' = 32),
returning 255 for characters outside [0-9A-Fa-f]. -/
def getHexCharValue (hexChar : Char) : Nat :=
  let w0 : Int := (hexChar.toNat : Int) - 48
  if 0 ≤ w0 then
    if w0 ≤ 9 then w0.toNat
    else
      let w1 := w0 - 7
      if 10 ≤ w1 then
        if w1 ≤ 15 then w1.toNat
        else
          let w2 := w1 - 32
          if 10 ≤ w2 then
            if w2 ≤ 15 then w2.toNat
            else 255
          else 255
      else 255
  else 255

/-- Error messages hexStringToByteArray can write. invalidHexCharacter
carries the offending character, its 1-based position, and the whole
input string, exactly the values interpolated by the C format string. -/
inductive HexError where
  | invalidHexCharacter (hexChar : Char) (position : Nat) (hexText : List Char)
  | allocationFailed
  deriving DecidableEq

/-- The character-processing loop of hexStringToByteArray (PBKDF2.cpp
lines 291-314). Arguments: remaining characters, 1-based position of the
next character, the isLowNibble flag, and the current byteValue
accumulator. Returns the bytes stored so far and, when an invalid
character stops the loop, that character with its position. -/
def hexDecodeLoop : List Char → Nat → Bool → Nat → List Nat × Option (Char × Nat)
  | [], _, _, _ => ([], none)
  | c :: rest, actPos, isLowNibble, byteValue =>
    let actValue := getHexCharValue c
    if actValue ≤ 15 then
      if isLowNibble then
        let r := hexDecodeLoop rest (actPos + 1) false byteValue
        ((byteValue ||| actValue) :: r.1, r.2)
      else
        hexDecodeLoop rest (actPos + 1) true (actValue <<< 4)
    else ([], some (c, actPos))

/-- Observable outcome of hexStringToByteArray: the returned pointer
(none models a NULL return, some holds the bytes actually stored), the
value written through the byteArraySize output parameter (none when the
C code never writes it), and the error message, if one was written. -/
structure HexDecodeResult where
  buffer : Option (List Nat)
  byteArraySize : Option Nat
  errorMsg : Option HexError
  deriving DecidableEq

/-- Embedding of hexStringToByteArray (PBKDF2.cpp lines 267-320). The
allocation size is length/2, plus one when the length is odd; on odd
length the loop starts in low-nibble mode with byteValue 0, so the first
character becomes a byte on its own. The byteArraySize output is written
before the loop runs. allocOk is the outcome of the malloc call; when it
fails the function returns NULL with only the error message set. -/
def hexStringToByteArray (allocOk : Bool) (hexText : List Char) : HexDecodeResult :=
  let hexTextSize := hexText.length
  let isHexTextSizeOdd : Bool := hexTextSize &&& 1 != 0
  let allocationSize := hexTextSize / 2 + (if isHexTextSizeOdd then 1 else 0)
  if allocOk then
    let r := hexDecodeLoop hexText 1 isHexTextSizeOdd 0
    { buffer := some r.1
      byteArraySize := some allocationSize
      errorMsg := r.2.map fun p => .invalidHexCharacter p.1 p.2 hexText }
  else
    { buffer := none, byteArraySize := none, errorMsg := some .allocationFailed }

/-- Zero-based index of the first character outside [0-9A-Fa-f]. -/
def firstInvalidIdx (s : List Char) : Nat :=
  s.findIdx fun c => decide (15 < getHexCharValue c)

/-- UTF-8 bytes of one Unicode code point (standard encoding, as produced
by WideCharToMultiByte with CP_UTF8). -/
def utf8Bytes (cp : Nat) : List Nat :=
  if cp < 128 then [cp]
  else if cp < 2048 then [192 ||| (cp >>> 6), 128 ||| (cp &&& 63)]
  else if cp < 65536 then
    [224 ||| (cp >>> 12), 128 ||| ((cp >>> 6) &&& 63), 128 ||| (cp &&& 63)]
  else
    [240 ||| (cp >>> 18), 128 ||| ((cp >>> 12) &&& 63),
     128 ||| ((cp >>> 6) &&& 63), 128 ||| (cp &&& 63)]

/-- High-surrogate test for a UTF-16 code unit. -/
def isHighSurrogate (u : Nat) : Bool := 55296 ≤ u && u < 56320

/-- Low-surrogate test for a UTF-16 code unit. -/
def isLowSurrogate (u : Nat) : Bool := 56320 ≤ u && u < 57344

/-- UTF-16 to UTF-8 conversion as performed by WideCharToMultiByte with
CP_UTF8 and no flags: surrogate pairs are combined, unpaired surrogates
are replaced by U+FFFD. The password is a list of UTF-16 code units. -/
def utf16ToUtf8 : List Nat → List Nat
  | [] => []
  | [u] =>
    if isHighSurrogate u then utf8Bytes 65533
    else if isLowSurrogate u then utf8Bytes 65533
    else utf8Bytes u
  | u :: v :: rest2 =>
    if isHighSurrogate u then
      if isLowSurrogate v then
        utf8Bytes (65536 + (u - 55296) * 1024 + (v - 56320)) ++ utf16ToUtf8 rest2
      else utf8Bytes 65533 ++ utf16ToUtf8 (v :: rest2)
    else if isLowSurrogate u then utf8Bytes 65533 ++ utf16ToUtf8 (v :: rest2)
    else utf8Bytes u ++ utf16ToUtf8 (v :: rest2)
 termination_by l => l.length
 decreasing_by all_goals simp <;> omega

/-- Embedding of getPasswordUTF8Encoding (PBKDF2.cpp lines 362-409,
Unicode build): the Win32 conversion to UTF-8, with the malloc outcome as
an oracle; on allocation failure only the error message is set and the
output stays NULL (modelled as none). -/
def getPasswordUTF8Encoding (allocOk : Bool) (password : List Nat) : Option (List Nat) :=
  if allocOk then some (utf16ToUtf8 password) else none

/-- The naive password bytes of _tmain (line 636-637): the in-memory
representation of the TCHAR string reinterpreted as bytes, i.e. each
UTF-16 code unit contributes its two bytes in little-endian order, and
the byte count is length * sizeof(TCHAR). -/
def utf16NativeBytes (password : List Nat) : List Nat :=
  (password.map fun u => [u % 256, u / 256 % 256]).flatten

/-- The salt bytes of the naive branch of _tmain (lines 575-578): the
four bytes of the C int salt read in memory order on a little-endian
machine (least significant byte first). -/
def intLEBytes (v : Int) : List Nat :=
  let u := (v % 4294967296).toNat
  [u % 256, u / 256 % 256, u / 65536 % 256, u / 16777216 % 256]

/-- The four bcrypt hash algorithms the program can name. -/
inductive HashAlg where
  | sha1
  | sha256
  | sha384
  | sha512
  deriving DecidableEq

/-- The HASH_ALGORITHM table of PBKDF2.cpp line 517: SHA-1, SHA-256,
SHA-384, SHA-512, SHA-512 (the last entry is duplicated). -/
def HASH_ALGORITHM : List HashAlg :=
  [.sha1, .sha256, .sha384, .sha512, .sha512]

/-- Native digest length in bytes of each algorithm, as reported by
BCryptGetProperty with BCRYPT_HASH_LENGTH. -/
def hashDigestLength : HashAlg → Nat
  | .sha1 => 20
  | .sha256 => 32
  | .sha384 => 48
  | .sha512 => 64

/-- The algorithm _tmain selects for a validated hashType argument:
line 548 subtracts 1 and line 647 indexes HASH_ALGORITHM with it. The
default is never reached for hashType in [1,5]. -/
def selectHashAlgorithm (hashType : Int) : HashAlg :=
  HASH_ALGORITHM.getD (hashType - 1).toNat .sha1

/-- Error messages calculatePBKDF2 can write (PBKDF2.cpp lines 414-478),
one per failing step. -/
inductive PBKDF2Error where
  | openAlgorithmProviderFailed
  | getPropertyFailed
  | allocationFailed
  | deriveKeyFailed
  deriving DecidableEq

/-- Oracle for the outcomes of the external bcrypt calls and the malloc
inside calculatePBKDF2. -/
structure BcryptOracle where
  openOk : Bool
  getPropOk : Bool
  allocOk : Bool
  deriveOk : Bool
  deriving DecidableEq

/-- Embedding of the control flow of calculatePBKDF2 (PBKDF2.cpp lines
414-478): open the HMAC provider, query the hash length, allocate the
derived-key buffer, run BCryptDeriveKeyPBKDF2; the first failing step
writes its error message and later steps are skipped. Returns the error
message written, if any. -/
def calculatePBKDF2Error (o : BcryptOracle) : Option PBKDF2Error :=
  if o.openOk then
    if o.getPropOk then
      if o.allocOk then
        if o.deriveOk then none else some .deriveKeyFailed
      else some .allocationFailed
    else some .getPropertyFailed
  else some .openAlgorithmProviderFailed

/-- Inputs of one run of _tmain, with oracle fields for the outcomes of
the external calls the program makes: the three malloc sites whose
failure the program checks, and the bcrypt steps. argc counts the program
name, so five arguments means argc = 6. -/
structure TMainInput where
  argc : Nat
  errno0 : Int
  hashTypeArg : List Char
  saltArg : List Char
  iterationCountArg : List Char
  passwordUnits : List Nat
  hexAllocOk : Bool
  passwordAllocOk : Bool
  saltTextAllocOk : Bool
  bcrypt : BcryptOracle
  deriving DecidableEq

/-- Embedding of the exit-code control flow of _tmain (PBKDF2.cpp lines
522-732). Fewer than four user arguments (argc < 5) prints usage and
returns 1. A fifth argument (argc >= 6) selects the correct mode, in
which the salt is hex-decoded and the password converted to UTF-8;
otherwise the salt and password are taken naively. Each error-buffer
check mirrors the source: hash-type, salt and iteration-count failures
return 2; a password-encoding failure returns 3; an error message left by
calculatePBKDF2 returns 2 (lines 688-693); a NULL salt text returns 3.
errno is threaded through the _ttoi calls and never reset. -/
def tmainExitCode (inp : TMainInput) : Nat :=
  if 5 ≤ inp.argc then
    if (getIntegerArg .hashType inp.errno0 inp.hashTypeArg MIN_HASH_TYPE MAX_HASH_TYPE).2.2.isSome then 2
    else
      if 6 ≤ inp.argc then
        if (hexStringToByteArray inp.hexAllocOk inp.saltArg).errorMsg.isSome then 2
        else
          if (getIntegerArg .iterationCount (getIntegerArg .hashType inp.errno0 inp.hashTypeArg MIN_HASH_TYPE MAX_HASH_TYPE).2.1 inp.iterationCountArg MIN_ITERATION_COUNT MAX_ITERATION_COUNT).2.2.isSome then 2
          else
            if inp.passwordAllocOk then
              if (calculatePBKDF2Error inp.bcrypt).isSome then 2
              else if inp.saltTextAllocOk then 0 else 3
            else 3
      else
        if (getIntegerArg .salt (getIntegerArg .hashType inp.errno0 inp.hashTypeArg MIN_HASH_TYPE MAX_HASH_TYPE).2.1 inp.saltArg MIN_SALT MAX_SALT).2.2.isSome then 2
        else
          if (getIntegerArg .iterationCount (getIntegerArg .salt (getIntegerArg .hashType inp.errno0 inp.hashTypeArg MIN_HASH_TYPE MAX_HASH_TYPE).2.1 inp.saltArg MIN_SALT MAX_SALT).2.1 inp.iterationCountArg MIN_ITERATION_COUNT MAX_ITERATION_COUNT).2.2.isSome then 2
          else
            if (calculatePBKDF2Error inp.bcrypt).isSome then 2
            else if inp.saltTextAllocOk then 0 else 3
  else 1

/-- The error taxonomy of the spec, plus a no-failure case. -/
inductive FailureKind where
  | usageError
  | validationError
  | resourceError
  | derivationError
  | noFailure
  deriving DecidableEq

/-- Exit code of each failure kind per the amended taxonomy: usage errors
exit 1; validation failures (including any failure of the salt hex
conversion) exit 2; every failure reported by the PBKDF2 derivation step
also exits 2; resource failures in password encoding or salt-text
formatting exit 3. -/
def exitCodeOfFailure : FailureKind → Nat
  | .usageError => 1
  | .validationError => 2
  | .derivationError => 2
  | .resourceError => 3
  | .noFailure => 0

/-- Classification of a run into the taxonomy, following the fixed
pipeline order (hash type, salt, iteration count, password, derivation,
output formatting), stopping at the first failure. -/
def runFailureKind (inp : TMainInput) : FailureKind :=
  if 5 ≤ inp.argc then
    if (getIntegerArg .hashType inp.errno0 inp.hashTypeArg MIN_HASH_TYPE MAX_HASH_TYPE).2.2.isSome then .validationError
    else
      if 6 ≤ inp.argc then
        if (hexStringToByteArray inp.hexAllocOk inp.saltArg).errorMsg.isSome then .validationError
        else
          if (getIntegerArg .iterationCount (getIntegerArg .hashType inp.errno0 inp.hashTypeArg MIN_HASH_TYPE MAX_HASH_TYPE).2.1 inp.iterationCountArg MIN_ITERATION_COUNT MAX_ITERATION_COUNT).2.2.isSome then .validationError
          else
            if inp.passwordAllocOk then
              if (calculatePBKDF2Error inp.bcrypt).isSome then .derivationError
              else if inp.saltTextAllocOk then .noFailure else .resourceError
            else .resourceError
      else
        if (getIntegerArg .salt (getIntegerArg .hashType inp.errno0 inp.hashTypeArg MIN_HASH_TYPE MAX_HASH_TYPE).2.1 inp.saltArg MIN_SALT MAX_SALT).2.2.isSome then .validationError
        else
          if (getIntegerArg .iterationCount (getIntegerArg .salt (getIntegerArg .hashType inp.errno0 inp.hashTypeArg MIN_HASH_TYPE MAX_HASH_TYPE).2.1 inp.saltArg MIN_SALT MAX_SALT).2.1 inp.iterationCountArg MIN_ITERATION_COUNT MAX_ITERATION_COUNT).2.2.isSome then .validationError
          else
            if (calculatePBKDF2Error inp.bcrypt).isSome then .derivationError
            else if inp.saltTextAllocOk then .noFailure else .resourceError
  else .usageError

/-- Exit code predicted by the amended error taxonomy. -/
def amendedExitCode (inp : TMainInput) : Nat :=
  exitCodeOfFailure (runFailureKind inp)

/-- A concrete run in correct mode with valid arguments in which the
BCryptDeriveKeyPBKDF2 call fails. -/
def derivationFailureRun : TMainInput :=
  { argc := 6
    errno0 := 0
    hashTypeArg := ['1']
    saltArg := ['0', 'A']
    iterationCountArg := ['1', '0', '0', '0']
    passwordUnits := [116]
    hexAllocOk := true
    passwordAllocOk := true
    saltTextAllocOk := true
    bcrypt := { openOk := true, getPropOk := true, allocOk := true, deriveOk := false } }

/-- The two salt/password handling modes of the spec. -/
inductive Mode where
  | Correct
  | Naive
  deriving DecidableEq

/-- Mode selected by _tmain line 542: a fifth argument (argc >= 6) means
correct mode. -/
def modeOf (doItRight : Bool) : Mode :=
  if doItRight then .Correct else .Naive

/-- Spec-side little-endian byte representation of an integer, following
the words of the spec: four bytes, byte i holding (v / 256^i) mod 256 of
the 32-bit value. -/
def specLittleEndianSalt (v : Int) : List Nat :=
  (List.range 4).map fun i => (v % 4294967296).toNat / 256 ^ i % 256

/-- Salt bytes of _tmain (lines 563-579): in correct mode the buffer
returned by hexStringToByteArray, in naive mode the in-memory bytes of
the int parsed by getIntegerArg with the salt bounds. -/
def tmainSaltBytes (doItRight : Bool) (errno0 : Int) (hexAllocOk : Bool)
    (saltArg : List Char) : Option (List Nat) :=
  if doItRight then (hexStringToByteArray hexAllocOk saltArg).buffer
  else some (intLEBytes (getIntegerArg .salt errno0 saltArg MIN_SALT MAX_SALT).1)

/-- Password bytes of _tmain (lines 608-638): in correct mode the UTF-8
conversion of getPasswordUTF8Encoding, in naive mode the native TCHAR
memory image reinterpreted as bytes. -/
def tmainPasswordBytes (doItRight : Bool) (allocOk : Bool)
    (password : List Nat) : Option (List Nat) :=
  if doItRight then getPasswordUTF8Encoding allocOk password
  else some (utf16NativeBytes password)

/-- Spec-side ModeSelector salt construction, following the words of
section 4.5: Correct mode decodes the salt argument with the hex codec,
Naive mode takes the little-endian bytes of the bounded-integer parse. -/
def buildSaltBytes : Mode → Int → Bool → List Char → Option (List Nat)
  | .Correct, _, hexAllocOk, saltArg => (hexStringToByteArray hexAllocOk saltArg).buffer
  | .Naive, errno0, _, saltArg =>
    some (specLittleEndianSalt (getIntegerArg .salt errno0 saltArg MIN_SALT MAX_SALT).1)

/-- Spec-side ModeSelector password construction, following the words of
section 4.5: Correct mode converts the text to UTF-8, Naive mode takes
the native in-memory bytes unchanged. -/
def buildPasswordBytes : Mode → Bool → List Nat → Option (List Nat)
  | .Correct, allocOk, password => getPasswordUTF8Encoding allocOk password
  | .Naive, _, password => some (utf16NativeBytes password)

/-- The two hex digits of one byte, without the separating blank: the
form in which the decoder can consume the encoder's output. -/
def hexPair (b : Nat) : List Char :=
  [hexDigitAt ((b &&& 255) >>> 4), hexDigitAt ((b &&& 255) &&& 15)]

/-- Removal of the separating blanks the encoder inserts, producing the
separator-free text the decoder accepts. -/
def removeSeparators (s : List Char) : List Char :=
  s.filter fun c => c != ' '

set_option maxRecDepth 4096 in
/-- Masking with 0xff is the identity on byte values. -/
theorem and255_of_lt {b : Nat} (h : b < 256) : b &&& 255 = b := by
  have hall : ∀ x : Fin 256, x.val &&& 255 = x.val := by decide
  exact hall ⟨b, h⟩

set_option maxRecDepth 4096 in
/-- The two nibbles of a byte are below 16 and recombine to the byte. -/
theorem byte_nibble_facts {b : Nat} (h : b < 256) :
    b >>> 4 < 16 ∧ b &&& 15 < 16 ∧ ((b >>> 4) <<< 4 ||| (b &&& 15)) = b := by
  have hall : ∀ x : Fin 256,
      x.val >>> 4 < 16 ∧ x.val &&& 15 < 16 ∧
      ((x.val >>> 4) <<< 4 ||| (x.val &&& 15)) = x.val := by decide
  exact hall ⟨b, h⟩

/-- getHexCharValue inverts the HEX_DIGITS table. -/
theorem getHexCharValue_hexDigitAt {k : Nat} (h : k < 16) :
    getHexCharValue (hexDigitAt k) = k := by
  have hall : ∀ x : Fin 16, getHexCharValue (hexDigitAt x.val) = x.val := by decide
  exact hall ⟨k, h⟩

/-- No hex digit is the separating blank. -/
theorem hexDigitAt_ne_space (n : Nat) : (hexDigitAt n != ' ') = true := by
  by_cases h : n < 16
  · have hall : ∀ x : Fin 16, (hexDigitAt x.val != ' ') = true := by decide
    exact hall ⟨n, h⟩
  · have hlen : HEX_DIGITS.length ≤ n := by
      simp [HEX_DIGITS]
      omega
    simp [hexDigitAt, List.getD, List.getElem?_eq_none hlen]

/-- One low-nibble step of the decode loop on a valid character. -/
theorem hexDecodeLoop_cons_low (c : Char) (rest : List Char) (pos bv : Nat)
    (h : getHexCharValue c ≤ 15) :
    hexDecodeLoop (c :: rest) pos true bv =
      ((bv ||| getHexCharValue c) :: (hexDecodeLoop rest (pos + 1) false bv).1,
        (hexDecodeLoop rest (pos + 1) false bv).2) := by
  simp [hexDecodeLoop, h]

/-- One high-nibble step of the decode loop on a valid character. -/
theorem hexDecodeLoop_cons_high (c : Char) (rest : List Char) (pos bv : Nat)
    (h : getHexCharValue c ≤ 15) :
    hexDecodeLoop (c :: rest) pos false bv =
      hexDecodeLoop rest (pos + 1) true (getHexCharValue c <<< 4) := by
  simp [hexDecodeLoop, h]

/-- On all-valid input the decode loop reports no error and stores one
byte per two characters, counting the initial odd half-byte. -/
theorem hexDecodeLoop_valid (s : List Char) : ∀ (pos bv : Nat) (lowNib : Bool),
    (∀ c ∈ s, getHexCharValue c ≤ 15) →
    (hexDecodeLoop s pos lowNib bv).2 = none ∧
    (hexDecodeLoop s pos lowNib bv).1.length =
      (s.length + (if lowNib then 1 else 0)) / 2 := by
  induction s with
  | nil =>
    intro pos bv lowNib _
    cases lowNib <;> simp [hexDecodeLoop]
  | cons c rest ih =>
    intro pos bv lowNib h
    have hc : getHexCharValue c ≤ 15 := h c (List.mem_cons_self c rest)
    have hrest : ∀ x ∈ rest, getHexCharValue x ≤ 15 :=
      fun x hx => h x (List.mem_cons_of_mem c hx)
    cases lowNib with
    | true =>
      have hrec := ih (pos + 1) bv false hrest
      have h2 := hrec.2
      simp at h2
      rw [hexDecodeLoop_cons_low c rest pos bv hc]
      refine ⟨hrec.1, ?_⟩
      simp only [List.length_cons]
      simp
      omega
    | false =>
      have hrec := ih (pos + 1) (getHexCharValue c <<< 4) true hrest
      have h2 := hrec.2
      simp at h2
      rw [hexDecodeLoop_cons_high c rest pos bv hc]
      refine ⟨hrec.1, ?_⟩
      simp
      omega

/-- The decode loop never stores more than one byte per two characters,
counting the initial odd half-byte, whether or not it fails. -/
theorem hexDecodeLoop_length_le (s : List Char) : ∀ (pos bv : Nat) (lowNib : Bool),
    (hexDecodeLoop s pos lowNib bv).1.length ≤
      (s.length + (if lowNib then 1 else 0)) / 2 := by
  induction s with
  | nil =>
    intro pos bv lowNib
    simp [hexDecodeLoop]
  | cons c rest ih =>
    intro pos bv lowNib
    by_cases hc : getHexCharValue c ≤ 15
    · cases lowNib with
      | true =>
        have hrec := ih (pos + 1) bv false
        simp at hrec
        rw [hexDecodeLoop_cons_low c rest pos bv hc]
        simp only [List.length_cons]
        simp
        omega
      | false =>
        have hrec := ih (pos + 1) (getHexCharValue c <<< 4) true
        simp at hrec
        rw [hexDecodeLoop_cons_high c rest pos bv hc]
        simp
        omega
    · simp [hexDecodeLoop, hc]

/-- When some character is invalid, the decode loop stops at the first
one and reports it with its position. -/
theorem hexDecodeLoop_invalid (s : List Char) : ∀ (pos bv : Nat) (lowNib : Bool),
    (∃ c ∈ s, 15 < getHexCharValue c) →
    (hexDecodeLoop s pos lowNib bv).2 =
      some (s.getD (firstInvalidIdx s) ' ', pos + firstInvalidIdx s) := by
  induction s with
  | nil =>
    intro pos bv lowNib h
    simp at h
  | cons c rest ih =>
    intro pos bv lowNib h
    by_cases hc : getHexCharValue c ≤ 15
    · have hdec : (decide (15 < getHexCharValue c)) = false := by
        simp
        omega
      have hrest : ∃ x ∈ rest, 15 < getHexCharValue x := by
        rcases h with ⟨x, hx, hxv⟩
        rcases List.mem_cons.mp hx with rfl | hx2
        · omega
        · exact ⟨x, hx2, hxv⟩
      have hidx : firstInvalidIdx (c :: rest) = firstInvalidIdx rest + 1 := by
        simp [firstInvalidIdx, List.findIdx_cons, hdec]
      cases lowNib with
      | true =>
        have hrec := ih (pos + 1) bv false hrest
        rw [hexDecodeLoop_cons_low c rest pos bv hc]
        rw [hrec, hidx]
        simp only [List.getD_cons_succ, Option.some.injEq, Prod.mk.injEq]
        refine ⟨by trivial, by omega⟩
      | false =>
        have hrec := ih (pos + 1) (getHexCharValue c <<< 4) true hrest
        rw [hexDecodeLoop_cons_high c rest pos bv hc]
        rw [hrec, hidx]
        simp only [List.getD_cons_succ, Option.some.injEq, Prod.mk.injEq]
        refine ⟨by trivial, by omega⟩
    · have hdec : (decide (15 < getHexCharValue c)) = true := by
        simp
        omega
      have hidx : firstInvalidIdx (c :: rest) = 0 := by
        simp [firstInvalidIdx, List.findIdx_cons, hdec]
      simp [hexDecodeLoop, hc, hidx]

/-- The allocation size expression of hexStringToByteArray equals the
rounded-up half length. -/
theorem allocationSize_eq (n : Nat) :
    n / 2 + (if (n &&& 1 != 0) = true then 1 else 0) = (n + 1) / 2 := by
  rw [Nat.and_one_is_mod]
  rcases Nat.mod_two_eq_zero_or_one n with h | h <;> rw [h] <;> simp <;> omega

/-- C7: for every hashType in [1,5] the algorithm selection through the
HASH_ALGORITHM table is deterministic and maps 1 to SHA-1, 2 to SHA-256,
3 to SHA-384, and both 4 and 5 to SHA-512, the 64-byte-digest
algorithm. Determinism holds because selectHashAlgorithm is a function
of the validated argument alone; the five equations cover all values of
[1,5]. -/
theorem hash_algorithm_table_mapping :
    selectHashAlgorithm 1 = .sha1 ∧ selectHashAlgorithm 2 = .sha256 ∧
    selectHashAlgorithm 3 = .sha384 ∧ selectHashAlgorithm 4 = .sha512 ∧
    selectHashAlgorithm 5 = .sha512 ∧ selectHashAlgorithm 4 = selectHashAlgorithm 5 ∧
    hashDigestLength (selectHashAlgorithm 4) = 64 ∧
    hashDigestLength (selectHashAlgorithm 5) = 64 := by decide

/-- C3 (code bug): the non-numeric text "abc" is never reported as
not-an-integer, because _ttoi leaves errno untouched for non-numeric
input and the code's errno test therefore never fires: with the salt
bounds [0, INT_MAX] the argument "abc" is accepted as the value 0 with
no error at all, and with the iteration-count bounds [1, 5000000] it is
misreported as below-minimum instead of not-an-integer. -/
theorem non_numeric_text_not_reported_as_not_an_integer :
    getIntegerArg .salt 0 ['a', 'b', 'c'] MIN_SALT MAX_SALT = (0, 0, none) ∧
    (getIntegerArg .iterationCount 0 ['a', 'b', 'c']
        MIN_ITERATION_COUNT MAX_ITERATION_COUNT).2.2 =
      some (.belowMinimum .iterationCount MIN_ITERATION_COUNT) := by decide

/-- C5 (code bug): on an empty byte buffer, bytesToHex writes its string
terminator at offset -1, one position before the start of the zero-byte
allocation, so the empty input does not produce the empty text; it
corrupts memory and returns a buffer with no defined content. -/
theorem bytesToHex_empty_input_terminator_out_of_bounds :
    bytesToHexTerminatorIndex 0 < 0 := by decide

/-- C8 (amended): with the iteration-count bounds [1, 5000000] the parser
rejects "0" with the below-minimum error and "6000000" with the
above-maximum error, and accepts the boundary values "1" and "5000000"
unchanged; each bound-failure message names the argument and the violated
bound (but not the offending value). -/
theorem iteration_count_bounds_behavior :
    getIntegerArg .iterationCount 0 ['0'] MIN_ITERATION_COUNT MAX_ITERATION_COUNT =
      (0, 0, some (.belowMinimum .iterationCount MIN_ITERATION_COUNT)) ∧
    getIntegerArg .iterationCount 0 ['6', '0', '0', '0', '0', '0', '0']
        MIN_ITERATION_COUNT MAX_ITERATION_COUNT =
      (0, 0, some (.aboveMaximum .iterationCount MAX_ITERATION_COUNT)) ∧
    getIntegerArg .iterationCount 0 ['1'] MIN_ITERATION_COUNT MAX_ITERATION_COUNT =
      (1, 0, none) ∧
    getIntegerArg .iterationCount 0 ['5', '0', '0', '0', '0', '0', '0']
        MIN_ITERATION_COUNT MAX_ITERATION_COUNT =
      (5000000, 0, none) := by decide

/-- C8 counterexample: the offending values 0 and -3 produce identical
below-minimum results, so the bound-failure message cannot name the
offending value, contrary to the claim. -/
theorem bound_failure_message_omits_offending_value :
    getIntegerArg .iterationCount 0 ['0'] MIN_ITERATION_COUNT MAX_ITERATION_COUNT =
      getIntegerArg .iterationCount 0 ['-', '3']
        MIN_ITERATION_COUNT MAX_ITERATION_COUNT := by decide

/-- C1 counterexample: in a run with valid arguments where the
BCryptDeriveKeyPBKDF2 call fails, _tmain returns exit code 2, not the
exit code 3 the claim requires for derivation failures. -/
theorem derive_failure_exits_with_code_two :
    tmainExitCode derivationFailureRun = 2 ∧
    tmainExitCode derivationFailureRun ≠ 3 := by decide

/-- C1 (amended): the exit code of every run follows the amended
taxonomy: 1 when fewer than four user arguments are supplied; 2 for
parameter validation failures, including every failure of the salt hex
conversion, and also for every failure reported by the PBKDF2
derivation step (allocation, algorithm, property query, or derivation);
3 only for password encoding-conversion failures and for the salt-text
allocation failure in output formatting. -/
theorem tmain_exit_code_amended_taxonomy (inp : TMainInput) :
    tmainExitCode inp = amendedExitCode inp := by
  unfold tmainExitCode amendedExitCode runFailureKind
  split_ifs <;> rfl

/-- C6: the mode seam matches the spec's ModeSelector: in Correct mode
the derivation salt is the hex-decoding of the salt argument and the
password bytes are its UTF-8 encoding; in Naive mode the salt is the
little-endian byte representation of the salt argument parsed as a
bounded integer and the password bytes are the native in-memory TCHAR
representation reinterpreted as raw bytes. -/
theorem mode_seam_matches_spec (doItRight : Bool) (errno0 : Int)
    (hexAllocOk pwAllocOk : Bool) (saltArg : List Char) (password : List Nat) :
    tmainSaltBytes doItRight errno0 hexAllocOk saltArg =
      buildSaltBytes (modeOf doItRight) errno0 hexAllocOk saltArg ∧
    tmainPasswordBytes doItRight pwAllocOk password =
      buildPasswordBytes (modeOf doItRight) pwAllocOk password := by
  have hle : ∀ v : Int, intLEBytes v = specLittleEndianSalt v := by
    intro v
    have hr : List.range 4 = [0, 1, 2, 3] := by decide
    simp [intLEBytes, specLittleEndianSalt, hr]
  cases doItRight <;>
    simp [tmainSaltBytes, buildSaltBytes, tmainPasswordBytes, buildPasswordBytes,
      modeOf, hle]

/-- Unfolding of hexStringToByteArray on a successful allocation. -/
theorem hexStringToByteArray_true_eq (s : List Char) :
    hexStringToByteArray true s =
      { buffer := some (hexDecodeLoop s 1 (s.length &&& 1 != 0) 0).1
        byteArraySize := some ((s.length + 1) / 2)
        errorMsg := (hexDecodeLoop s 1 (s.length &&& 1 != 0) 0).2.map
          fun p => HexError.invalidHexCharacter p.1 p.2 s } := by
  simp only [hexStringToByteArray, allocationSize_eq, if_true]

/-- C4: every odd-length string of characters from [0-9A-Fa-f] decodes
without error into ceil(length/2) bytes; the first character supplies
only the low nibble of the first byte, whose high nibble is therefore
zero. -/
theorem odd_length_hex_decodes_with_zero_high_nibble (s : List Char)
    (hodd : s.length % 2 = 1)
    (hvalid : ∀ c ∈ s, getHexCharValue c ≤ 15) :
    (hexStringToByteArray true s).errorMsg = none ∧
    ((hexStringToByteArray true s).buffer.getD []).length = (s.length + 1) / 2 ∧
    ((hexStringToByteArray true s).buffer.getD []).head? =
      s.head?.map getHexCharValue ∧
    (((hexStringToByteArray true s).buffer.getD []).headD 0) >>> 4 = 0 := by
  cases s with
  | nil => simp at hodd
  | cons c rest =>
    have hoddb : ((c :: rest).length &&& 1 != 0) = true := by
      rw [Nat.and_one_is_mod, hodd]
      rfl
    have hv : getHexCharValue c ≤ 15 := hvalid c (List.mem_cons_self c rest)
    have hrest : ∀ x ∈ rest, getHexCharValue x ≤ 15 :=
      fun x hx => hvalid x (List.mem_cons_of_mem c hx)
    have hrec := hexDecodeLoop_valid rest (1 + 1) 0 false hrest
    have h2 := hrec.2
    simp at h2
    have hstep := hexDecodeLoop_cons_low c rest 1 0 hv
    rw [hexStringToByteArray_true_eq, hoddb, hstep]
    refine ⟨?_, ?_, ?_, ?_⟩
    · simp [hrec.1]
    · simp [h2]
      omega
    · simp [Nat.zero_or]
    · simp [Nat.zero_or]
      rw [Nat.shiftRight_eq_div_pow]
      refine Nat.div_eq_of_lt ?_
      have hp : (2 : Nat) ^ 4 = 16 := by norm_num
      omega

/-- C4 witness: the one-character salt "A" decodes without error into
the single byte 0x0A. -/
theorem odd_length_hex_decodes_with_zero_high_nibble_witness :
    (['A'].length % 2 = 1) ∧
    (hexStringToByteArray true ['A']).errorMsg = none ∧
    ((hexStringToByteArray true ['A']).buffer.getD []).length = 1 ∧
    ((hexStringToByteArray true ['A']).buffer.getD []).head? = some 10 := by
  have h := odd_length_hex_decodes_with_zero_high_nibble ['A'] (by decide) (by decide)
  refine ⟨by decide, h.1, ?_, ?_⟩
  · simpa using h.2.1
  · rw [h.2.2.1]
    decide

/-- C9: for every input containing a character outside [0-9A-Fa-f], the
decoder fails with an invalid-hex-character message naming the first
offending character, its 1-based position, and the original input
string; the loop stops there, so later characters are not examined and
the reported character is always the first invalid one. -/
theorem invalid_hex_char_reported_with_position_and_input (s : List Char)
    (h : ∃ c ∈ s, 15 < getHexCharValue c) :
    (hexStringToByteArray true s).errorMsg =
      some (.invalidHexCharacter (s.getD (firstInvalidIdx s) ' ')
        (1 + firstInvalidIdx s) s) := by
  have hloop := hexDecodeLoop_invalid s 1 0 (s.length &&& 1 != 0) h
  rw [hexStringToByteArray_true_eq, hloop]
  rfl

/-- C9 witness: in the input "XA" the character X is reported at
position 1 together with the whole input. -/
theorem invalid_hex_char_reported_with_position_and_input_witness :
    (hexStringToByteArray true ['X', 'A']).errorMsg =
      some (.invalidHexCharacter 'X' 1 ['X', 'A']) := by
  have h := invalid_hex_char_reported_with_position_and_input ['X', 'A']
    ⟨'X', by decide, by decide⟩
  rw [h]
  decide

/-- C10: when the input contains an invalid hex character and the
allocation succeeded, hexStringToByteArray still returns a non-NULL
buffer, has already written the full ceil(length/2) allocation size
through the byteArraySize output parameter, signals the failure only
through the error message, and the buffer holds at most the bytes
decoded before the failure, so the caller owns a partially-filled
allocation on this error path. -/
theorem hex_decode_failure_still_returns_sized_buffer (s : List Char)
    (h : ∃ c ∈ s, 15 < getHexCharValue c) :
    (hexStringToByteArray true s).buffer.isSome = true ∧
    (hexStringToByteArray true s).byteArraySize = some ((s.length + 1) / 2) ∧
    (hexStringToByteArray true s).errorMsg.isSome = true ∧
    ((hexStringToByteArray true s).buffer.getD []).length ≤ (s.length + 1) / 2 := by
  have hloop := hexDecodeLoop_invalid s 1 0 (s.length &&& 1 != 0) h
  have hlen := hexDecodeLoop_length_le s 1 0 (s.length &&& 1 != 0)
  rw [hexStringToByteArray_true_eq, hloop]
  refine ⟨rfl, rfl, rfl, ?_⟩
  simp only [Option.getD_some]
  rcases Bool.eq_false_or_eq_true (s.length &&& 1 != 0) with hbo | hbo
  · rw [hbo] at hlen ⊢
    simp at hlen
    omega
  · rw [hbo] at hlen ⊢
    simp at hlen
    omega

/-- C10 witness: in the input "0G" the decode fails at G, yet the
buffer is present, the announced size is 1 byte, and nothing beyond the
failure point was stored. -/
theorem hex_decode_failure_still_returns_sized_buffer_witness :
    (hexStringToByteArray true ['0', 'G']).buffer.isSome = true ∧
    (hexStringToByteArray true ['0', 'G']).byteArraySize = some 1 ∧
    (hexStringToByteArray true ['0', 'G']).errorMsg.isSome = true ∧
    ((hexStringToByteArray true ['0', 'G']).buffer.getD []).length ≤ 1 := by
  have h := hex_decode_failure_still_returns_sized_buffer ['0', 'G']
    ⟨'G', by decide, by decide⟩
  exact ⟨h.1, h.2.1, h.2.2.1, h.2.2.2⟩

/-- Stripping the separating blanks from the encoder's output leaves
exactly the two hex digits of each byte. -/
theorem removeSeparators_bytesToHex (B : List Nat) :
    removeSeparators (bytesToHex B) = (B.map hexPair).flatten := by
  induction B with
  | nil => rfl
  | cons b B' ih =>
    cases B' with
    | nil =>
      simp [removeSeparators, bytesToHex, hexTriple, hexPair, hexDigitAt_ne_space]
    | cons b2 B'' =>
      have hne : ((b2 :: B'').map hexTriple).flatten ≠ [] := by
        simp [hexTriple]
      have h1 : bytesToHex (b :: b2 :: B'') =
          hexTriple b ++ bytesToHex (b2 :: B'') := by
        simp only [bytesToHex, List.map_cons, List.flatten_cons]
        exact List.dropLast_append_of_ne_nil _ hne
      rw [h1]
      have h2 : removeSeparators (hexTriple b ++ bytesToHex (b2 :: B'')) =
          hexPair b ++ removeSeparators (bytesToHex (b2 :: B'')) := by
        simp [removeSeparators, List.filter_append, hexTriple, hexPair,
          hexDigitAt_ne_space]
      rw [h2, ih]
      simp

/-- The separator-free encoding has two characters per byte. -/
theorem length_flatten_hexPairs (B : List Nat) :
    ((B.map hexPair).flatten).length = 2 * B.length := by
  induction B with
  | nil => rfl
  | cons b B' ih =>
    simp only [List.map_cons, List.flatten_cons, List.length_append, ih,
      List.length_cons]
    simp [hexPair]
    omega

/-- The decode loop inverts the separator-free encoding. -/
theorem hexDecodeLoop_pairs (B : List Nat) : ∀ (pos bv : Nat),
    (∀ b ∈ B, b < 256) →
    hexDecodeLoop ((B.map hexPair).flatten) pos false bv = (B, none) := by
  induction B with
  | nil =>
    intro pos bv _
    rfl
  | cons b B' ih =>
    intro pos bv h
    have hb : b < 256 := h b (List.mem_cons_self b B')
    have hB' : ∀ x ∈ B', x < 256 := fun x hx => h x (List.mem_cons_of_mem b hx)
    have hmask : b &&& 255 = b := and255_of_lt hb
    obtain ⟨h1, h2, h3⟩ := byte_nibble_facts hb
    have hv1 : getHexCharValue (hexDigitAt (b >>> 4)) = b >>> 4 :=
      getHexCharValue_hexDigitAt h1
    have hv2 : getHexCharValue (hexDigitAt (b &&& 15)) = b &&& 15 :=
      getHexCharValue_hexDigitAt h2
    simp only [List.map_cons, List.flatten_cons, hexPair, hmask, List.cons_append,
      List.nil_append]
    rw [hexDecodeLoop_cons_high _ _ _ _ (by rw [hv1]; omega)]
    rw [hv1]
    rw [hexDecodeLoop_cons_low _ _ _ _ (by rw [hv2]; omega)]
    rw [hv2, h3]
    rw [ih (pos + 1 + 1) ((b >>> 4) <<< 4) hB']

/-- C2 counterexample: for the two-byte sequence [0xAB, 0xCD] the
encoder produces "AB CD", and feeding that space-separated text back to
the decoder fails at the separating blank in position 3 instead of
reconstructing the bytes. -/
theorem hex_roundtrip_with_separators_fails :
    (hexStringToByteArray true (bytesToHex [171, 205])).errorMsg =
      some (.invalidHexCharacter ' ' 3 (bytesToHex [171, 205])) ∧
    (hexStringToByteArray true (bytesToHex [171, 205])).buffer ≠
      some [171, 205] := by decide

/-- C2 (amended): for every byte sequence B, decoding the encoder's
output after removing the separating blanks reconstructs B exactly; the
space-separated output itself is rejected by the decoder whenever it
contains a separator. -/
theorem hex_roundtrip_after_removing_separators (B : List Nat)
    (h : ∀ b ∈ B, b < 256) :
    (hexStringToByteArray true (removeSeparators (bytesToHex B))).buffer =
      some B ∧
    (hexStringToByteArray true (removeSeparators (bytesToHex B))).errorMsg =
      none := by
  rw [removeSeparators_bytesToHex]
  have hlen := length_flatten_hexPairs B
  have hev : ((((B.map hexPair).flatten).length &&& 1 != 0) : Bool) = false := by
    rw [Nat.and_one_is_mod, hlen]
    simp [Nat.mul_mod_right]
  have hloop := hexDecodeLoop_pairs B 1 0 h
  rw [hexStringToByteArray_true_eq, hev, hloop]
  exact ⟨rfl, rfl⟩

/-- C2 witness: the bytes [0x00, 0xFF] encode to "00 FF", and decoding
"00FF" reconstructs them. -/
theorem hex_roundtrip_after_removing_separators_witness :
    (hexStringToByteArray true (removeSeparators (bytesToHex [0, 255]))).buffer =
      some [0, 255] ∧
    (hexStringToByteArray true (removeSeparators (bytesToHex [0, 255]))).errorMsg =
      none :=
  hex_roundtrip_after_removing_separators [0, 255] (by decide)

end PBKDF2
